import Mathlib

/-!
Shallow embedding of the "Yandex Disk CSV: Append Row" node
(`src/nodes/YandexDiskCsvAppend.node.ts`).

The node's `execute` method performs a single linear flow:
resolve a download link (404 tolerated when `createIfMissing`),
fetch the current CSV text, discover a header from its first line
(`csv-parse`), map each input item to a row of strings, serialize the
rows (`csv-stringify` with `record_delimiter: '\n'`), optionally prepend
a header row when creating a fresh file, merge with the existing
content via `ensureTrailingNewline`, and upload the full replacement
body.  The embedding below models that flow as a pure function from a
configuration, a download-environment outcome and the input items to a
trace of issued network calls plus an `Except` result carrying the
uploaded body and the output items.
-/

/-- A scalar JSON value as it occurs in an input item's fields: the
node reads `items[i].json` as a map from field name to scalar.  The
values exercised by the node are strings, numbers and `null`; absent
keys are modelled by the lookup returning `none`. -/
inductive Value
  | str (s : String)
  | num (n : Int)
  | null
deriving DecidableEq

/-- An input record (`items[i].json`): field names in JS-object key
order, mapped to scalar values.  JS objects have unique keys. -/
abbrev Record := List (String × Value)

/-- A value of an output item: either a scalar carried over from the
input record or the `_ydisk: { filePath }` metadata object the node
adds. -/
inductive OutValue
  | val (v : Value)
  | meta (filePath : String)
deriving DecidableEq

/-- An output record (`{ ...it.json, _ydisk: { filePath } }`). -/
abbrev OutRecord := List (String × OutValue)

/-- The node's `mappingMode` parameter. -/
inductive MappingMode
  | byHeader
  | byColumns
deriving DecidableEq

/-- The per-invocation parameters read at the top of `execute`.  The
delimiter options offered by the node are the single characters
`,`, `;` and tab, so the delimiter is modelled as a `Char`. -/
structure Config where
  filePath : String
  delimiter : Char
  encoding : String
  hasHeader : Bool
  mappingMode : MappingMode
  columnsCsv : String
  createIfMissing : Bool
  writeHeaderOnCreate : Bool
deriving DecidableEq

/-- Model of JS `s.endsWith("\n")`: the last character is a newline. -/
def endsWithNewline (s : String) : Bool :=
  s.toList.getLast? == some '\n'

/-- `ensureTrailingNewline` from the source: append a `\n` unless the
string already ends with one. -/
def ensureTrailingNewline (s : String) : String :=
  if endsWithNewline s then s else s ++ "\n"

/-- Model of JS `s.trim()` (ASCII whitespace; the exotic Unicode
whitespace JS also trims does not occur in CSV text handled here). -/
def jsTrim (s : String) : String :=
  String.mk (((s.toList.dropWhile Char.isWhitespace).reverse.dropWhile
    Char.isWhitespace).reverse)

/-- Model of the guard `currentCsv.trim().length > 0`: the content has
at least one non-whitespace character. -/
def trimmedNonempty (s : String) : Bool :=
  s.toList.any (fun c => !c.isWhitespace)

/-- Model of `currentCsv.split(/\r?\n/)[0]`: the text before the first
`\n`, with an immediately preceding `\r` (part of the `\r\n` match)
stripped; when no `\n` occurs the whole string is the first line. -/
def firstLine (s : String) : String :=
  let cs := s.toList
  let pre := cs.takeWhile (fun c => c ≠ '\n')
  if pre.length < cs.length then
    String.mk (if pre.getLast? == some '\r' then pre.dropLast else pre)
  else
    String.mk pre

/-- `csv-stringify` quote-escaping: a quote character inside a quoted
field is doubled. -/
def escapeQuotes : List Char → List Char
  | [] => []
  | c :: rest =>
      if c = '"' then '"' :: '"' :: escapeQuotes rest
      else c :: escapeQuotes rest

/-- `csv-stringify` field serialization: a field containing the
delimiter, a quote or the record delimiter `\n` is wrapped in quotes
(with inner quotes doubled); any other field, the empty one included,
is emitted verbatim. -/
def encodeField (delim : Char) (f : String) : String :=
  if f.toList.contains delim || f.toList.contains '"'
      || f.toList.contains '\n' then
    "\"" ++ String.mk (escapeQuotes f.toList) ++ "\""
  else f

/-- One serialized record: fields joined by the delimiter. -/
def stringifyRow (delim : Char) (row : List String) : String :=
  String.intercalate (String.singleton delim) (row.map (encodeField delim))

/-- Model of `stringify(rows, { delimiter, record_delimiter: '\n' })`:
every record, the last included, is terminated by `\n`; an empty row
list yields the empty string. -/
def stringifyRows (delim : Char) (rows : List (List String)) : String :=
  String.join (rows.map (fun r => stringifyRow delim r ++ "\n"))

/-- Decidable equality for `Except`, so that concrete runs of the
model can be checked by `decide`. -/
instance {ε α : Type} [DecidableEq ε] [DecidableEq α] :
    DecidableEq (Except ε α) := fun x y =>
  match x, y with
  | .ok a, .ok b =>
      if h : a = b then .isTrue (congrArg Except.ok h)
      else .isFalse (fun he => h (Except.ok.inj he))
  | .error a, .error b =>
      if h : a = b then .isTrue (congrArg Except.error h)
      else .isFalse (fun he => h (Except.error.inj he))
  | .ok _, .error _ => .isFalse (fun he => Except.noConfusion he)
  | .error _, .ok _ => .isFalse (fun he => Except.noConfusion he)

/-- Errors raised by `csv-parse` on a malformed line. -/
inductive ParseErr
  | quoteNotClosed
  | invalidClosingQuote
  | invalidOpeningQuote
deriving DecidableEq

/-- Scanner state for one CSV record. -/
inductive FieldState
  | atStart
  | unquoted
  | quoted
  | afterQuote
deriving DecidableEq

/-- Character-by-character scan of one CSV record, modelling
`csv-parse`: fields split on the delimiter, quoted fields with `""`
escapes, an unquoted `\r` ending the record (csv-parse treats a bare
`\r` as a record delimiter), an unclosed quote or a stray quote being
an error. -/
def scanLine (delim : Char) :
    FieldState → List Char → List String → List Char →
    Except ParseErr (List String)
  | st, field, fields, [] =>
      match st with
      | .quoted => .error .quoteNotClosed
      | _ => .ok (fields ++ [String.mk field])
  | st, field, fields, c :: rest =>
      match st with
      | .atStart =>
          if c = '"' then scanLine delim .quoted field fields rest
          else if c = delim then
            scanLine delim .atStart [] (fields ++ [String.mk field]) rest
          else if c = '\r' then .ok (fields ++ [String.mk field])
          else scanLine delim .unquoted (field ++ [c]) fields rest
      | .unquoted =>
          if c = delim then
            scanLine delim .atStart [] (fields ++ [String.mk field]) rest
          else if c = '\r' then .ok (fields ++ [String.mk field])
          else if c = '"' then .error .invalidOpeningQuote
          else scanLine delim .unquoted (field ++ [c]) fields rest
      | .quoted =>
          if c = '"' then scanLine delim .afterQuote field fields rest
          else scanLine delim .quoted (field ++ [c]) fields rest
      | .afterQuote =>
          if c = '"' then scanLine delim .quoted (field ++ ['"']) fields rest
          else if c = delim then
            scanLine delim .atStart [] (fields ++ [String.mk field]) rest
          else if c = '\r' then .ok (fields ++ [String.mk field])
          else .error .invalidClosingQuote

/-- Model of `parse(line, { delimiter, relax_column_count: true })[0]
?? null` applied to one line: the empty line yields no record (so a
`none` header), otherwise the parsed field list of the first record,
or the parse error. -/
def parseCsvFirst (delim : Char) (s : String) :
    Except ParseErr (Option (List String)) :=
  if s.toList.isEmpty then .ok none
  else (scanLine delim .atStart [] [] s.toList).map (fun fs => some fs)

/-- Header discovery (lines 146-149 of the node): only when
`hasHeader` is set and the fetched content has a non-whitespace
character is the first line parsed; otherwise the header stays
unknown. -/
def headerRowOf (hasHeader : Bool) (delim : Char) (content : String) :
    Except ParseErr (Option (List String)) :=
  if hasHeader && trimmedNonempty content then
    parseCsvFirst delim (firstLine content)
  else .ok none

/-- Model of `obj[key]` on a record. -/
def lookupVal (r : Record) (k : String) : Option Value :=
  (r.find? (fun p => p.1 == k)).map (fun p => p.2)

/-- One cell of a mapped row: `(obj[key] ?? '')` followed by the
stringification `v === null || v === undefined ? '' : String(v)` — a
present non-null value is stringified, a missing or null one becomes
the empty string. -/
def cell (r : Record) (k : String) : String :=
  match lookupVal r k with
  | some (.str s) => s
  | some (.num n) => toString n
  | some .null => ""
  | none => ""

/-- Model of `Object.keys(obj)`: the field names in key order. -/
def recordKeys (r : Record) : List String :=
  r.map (fun p => p.1)

/-- Model of JS `s.split(sep)` on character lists: the fields between
occurrences of the separator; the empty input yields one empty
field. -/
def splitCharList (sep : Char) : List Char → List (List Char)
  | [] => [[]]
  | c :: rest =>
      if c = sep then [] :: splitCharList sep rest
      else
        match splitCharList sep rest with
        | [] => [[c]]
        | f :: fs => (c :: f) :: fs

/-- The `columns` parameter split on commas (JS `split(',')`), each
entry trimmed, empty entries dropped. -/
def explicitColumns (cfg : Config) : List String :=
  (((splitCharList ',' cfg.columnsCsv.toList).map
      (fun cs => jsTrim (String.mk cs))).filter
    (fun s => decide (0 < s.length)))

/-- The per-item mapping loop (lines 153-167): in `byHeader` mode a
missing header is derived once from the current record's key order and
kept for the remaining records; in `byColumns` mode the explicit
column list orders every row and the header state is untouched.
Returns the built rows and the header state after the loop. -/
def mapRecords (mode : MappingMode) (explicitCols : List String) :
    Option (List String) → List Record →
    List (List String) × Option (List String)
  | hdr, [] => ([], hdr)
  | hdr, obj :: rest =>
      let h := match mode with
        | .byHeader => some (hdr.getD (recordKeys obj))
        | .byColumns => hdr
      let row := match mode with
        | .byHeader => (hdr.getD (recordKeys obj)).map (fun k => cell obj k)
        | .byColumns => explicitCols.map (fun k => cell obj k)
      let tail := mapRecords mode explicitCols h rest
      (row :: tail.1, tail.2)

/-- Steps 3-4 (lines 170-179): serialize the rows; when the download
link was null (file absent, creation allowed) and `createIfMissing`,
`hasHeader` and `writeHeaderOnCreate` all hold, prepend one serialized
header row — the loop's header (or `[]`) in `byHeader` mode, the
explicit columns in `byColumns` mode. -/
def composeAppend (cfg : Config) (dlNull : Bool)
    (hdrAfter : Option (List String)) (rows : List (List String)) :
    String :=
  let appendCsv := stringifyRows cfg.delimiter rows
  if dlNull && cfg.createIfMissing && cfg.hasHeader
      && cfg.writeHeaderOnCreate then
    let header := match cfg.mappingMode with
      | .byHeader => hdrAfter.getD []
      | .byColumns => explicitColumns cfg
    stringifyRows cfg.delimiter [header] ++ appendCsv
  else appendCsv

/-- Step 5 (lines 182-184): `let finalCsv = currentCsv; if (finalCsv
&& appendCsv) finalCsv = ensureTrailingNewline(finalCsv) + appendCsv;
else if (!finalCsv) finalCsv = appendCsv;`. -/
def mergeCsv (currentCsv appendCsv : String) : String :=
  if currentCsv ≠ "" ∧ appendCsv ≠ "" then
    ensureTrailingNewline currentCsv ++ appendCsv
  else if currentCsv = "" then appendCsv
  else currentCsv

/-- Outcome of the download-resolution round trip, as seen by the
node: a resolved link whose fetch returns `content`, a 404, or any
other transport failure. -/
inductive DlEnv
  | found (content : String)
  | notFound
  | failure
deriving DecidableEq

/-- The ways an invocation aborts. -/
inductive ExecErr
  | notFound404
  | transport
  | malformedHeader
deriving DecidableEq

/-- The outbound HTTP calls the node can issue, in order. -/
inductive NetCall
  | resolveDownload (path : String)
  | fetchContent
  | resolveUpload (path : String)
  | upload (body : String)
deriving DecidableEq

/-- Model of `{ ...it.json, _ydisk: { filePath } }`: a preexisting
`_ydisk` field is overwritten in place by the JS spread-then-assign;
otherwise the metadata field is appended after the record's fields. -/
def addYdisk (fp : String) (r : Record) : OutRecord :=
  if r.any (fun p => p.1 == "_ydisk") then
    r.map (fun p =>
      if p.1 == "_ydisk" then (p.1, OutValue.meta fp)
      else (p.1, OutValue.val p.2))
  else r.map (fun p => (p.1, OutValue.val p.2)) ++
    [("_ydisk", OutValue.meta fp)]

/-- The tail of `execute` after the download phase established the
current content, the discovered header and whether the download link
was null: map the records, compose, merge, then issue the upload
resolution and the upload itself and echo the augmented items. -/
def runUploadPhase (cfg : Config) (items : List Record)
    (currentCsv : String) (hdr : Option (List String)) (dlNull : Bool)
    (dlTrace : List NetCall) :
    List NetCall × Except ExecErr (String × List OutRecord) :=
  let mapped := mapRecords cfg.mappingMode (explicitColumns cfg) hdr items
  let appendCsv := composeAppend cfg dlNull mapped.2 mapped.1
  let finalCsv := mergeCsv currentCsv appendCsv
  (dlTrace ++ [NetCall.resolveUpload cfg.filePath, NetCall.upload finalCsv],
   Except.ok (finalCsv, items.map (addYdisk cfg.filePath)))

/-- The whole `execute` flow as a pure function of the configuration,
the download environment and the input items: the list of issued
network calls and either the error that aborted the invocation or the
uploaded body together with the output items. -/
def execute (cfg : Config) (env : DlEnv) (items : List Record) :
    List NetCall × Except ExecErr (String × List OutRecord) :=
  match env with
  | .failure => ([NetCall.resolveDownload cfg.filePath], .error .transport)
  | .notFound =>
      if cfg.createIfMissing then
        runUploadPhase cfg items "" none true
          [NetCall.resolveDownload cfg.filePath]
      else ([NetCall.resolveDownload cfg.filePath], .error .notFound404)
  | .found content =>
      match headerRowOf cfg.hasHeader cfg.delimiter content with
      | .error _ =>
          ([NetCall.resolveDownload cfg.filePath, NetCall.fetchContent],
           .error .malformedHeader)
      | .ok hdr =>
          runUploadPhase cfg items content hdr false
            [NetCall.resolveDownload cfg.filePath, NetCall.fetchContent]

/-! ### Helper lemmas -/

/-- Appending a newline makes `endsWithNewline` true. -/
theorem endsWithNewline_append_newline (s : String) :
    endsWithNewline (s ++ "\n") = true := by
  show ((s ++ "\n").data.getLast? == some '\n') = true
  rw [String.data_append]
  show ((s.data ++ ['\n']).getLast? == some '\n') = true
  rw [List.getLast?_concat]
  rfl

/-- Once the header is known, the `byHeader` loop maps every record
with that same header and leaves the header unchanged. -/
theorem mapRecords_byHeader_some (cols h : List String)
    (l : List Record) :
    mapRecords .byHeader cols (some h) l
      = (l.map (fun o => h.map (fun k => cell o k)), some h) := by
  induction l with
  | nil => rfl
  | cons o rest ih => simp [mapRecords, ih]

/-- The `byColumns` loop maps every record with the explicit column
list and never touches the header state. -/
theorem mapRecords_byColumns (cols : List String)
    (hdr : Option (List String)) (l : List Record) :
    mapRecords .byColumns cols hdr l
      = (l.map (fun o => cols.map (fun k => cell o k)), hdr) := by
  induction l with
  | nil => rfl
  | cons o rest ih => simp [mapRecords, ih]

/-- Merging an empty append fragment returns the existing content
unchanged. -/
theorem mergeCsv_empty_append (c : String) : mergeCsv c "" = c := by
  unfold mergeCsv
  rw [if_neg (fun hb => hb.2 rfl)]
  by_cases hc : c = ""
  · rw [if_pos hc, hc]
  · rw [if_neg hc]

/-! ### Claim configurations and inputs -/

def cfgC1 : Config :=
  { filePath := "disk:/c1.csv", delimiter := ',', encoding := "utf-8",
    hasHeader := true, mappingMode := .byHeader, columnsCsv := "",
    createIfMissing := true, writeHeaderOnCreate := true }

def recC1a : Record := [("a", Value.num 1), ("b", Value.num 2)]

def recC1b : Record := [("a", Value.num 3), ("b", Value.num 4)]

def cfgC2 : Config :=
  { filePath := "disk:/c2.csv", delimiter := ',', encoding := "utf-8",
    hasHeader := true, mappingMode := .byHeader, columnsCsv := "",
    createIfMissing := true, writeHeaderOnCreate := true }

def recC2 : Record := [("a", Value.num 9), ("b", Value.num 8)]

def cfgC4w : Config :=
  { filePath := "disk:/c4.csv", delimiter := ',', encoding := "utf-8",
    hasHeader := true, mappingMode := .byHeader, columnsCsv := "",
    createIfMissing := false, writeHeaderOnCreate := true }

/-! ### Claim theorems -/

/-- C1: with the remote file absent, `createIfMissing`, `hasHeader`
and `writeHeaderOnCreate` all true, mode `byHeader`, comma delimiter
and input records `a=1,b=2` and `a=3,b=4`, the uploaded body is
exactly one header row derived from the first record's key order
followed by one data row per record, each `\n`-terminated. -/
theorem c1_absent_create_header_content :
    (execute cfgC1 .notFound [recC1a, recC1b]).2.toOption.map
        (fun p => p.1) = some "a,b\n1,2\n3,4\n" := by decide

/-- C2: appending the record `a=9,b=8` to an existing file with
content `a,b\nx,y\n` (with `hasHeader`, mode `byHeader`, comma
delimiter) uploads exactly the old content followed by the one new
row, with no second header row. -/
theorem c2_append_no_duplicate_header :
    (execute cfgC2 (.found "a,b\nx,y\n") [recC2]).2.toOption.map
        (fun p => p.1) = some "a,b\nx,y\n9,8\n" := by decide

/-- C3: for non-empty existing content `c` and non-empty append
fragment `a` the merge step yields `ensureTrailingNewline c ++ a` —
`c ++ "\n" ++ a` when `c` lacks a trailing newline and `c ++ a` when
it already has one; `ensureTrailingNewline` is idempotent; and for
empty `c` the merge result is `a` itself. -/
theorem c3_merge_single_terminator (c a : String) :
    (c ≠ "" → a ≠ "" →
      mergeCsv c a = ensureTrailingNewline c ++ a
      ∧ (endsWithNewline c = false → mergeCsv c a = c ++ "\n" ++ a)
      ∧ (endsWithNewline c = true → mergeCsv c a = c ++ a))
    ∧ mergeCsv "" a = a
    ∧ ensureTrailingNewline (ensureTrailingNewline c)
        = ensureTrailingNewline c := by
  refine ⟨fun hc ha => ?_, ?_, ?_⟩
  · have hm : mergeCsv c a = ensureTrailingNewline c ++ a := by
      unfold mergeCsv
      rw [if_pos ⟨hc, ha⟩]
    refine ⟨hm, fun he => ?_, fun he => ?_⟩
    · rw [hm]
      simp [ensureTrailingNewline, he]
    · rw [hm]
      simp [ensureTrailingNewline, he]
  · unfold mergeCsv
    rw [if_neg (fun hb => hb.1 rfl), if_pos rfl]
  · cases hcase : endsWithNewline c
    · simp [ensureTrailingNewline, hcase, endsWithNewline_append_newline]
    · simp [ensureTrailingNewline, hcase]

/-- Witness for C3 at `c = "x"`, `a = "y"`. -/
theorem c3_merge_single_terminator_witness :
    mergeCsv "x" "y" = ensureTrailingNewline "x" ++ "y"
    ∧ mergeCsv "" "y" = "y" :=
  ⟨((c3_merge_single_terminator "x" "y").1 (by decide) (by decide)).1,
   (c3_merge_single_terminator "x" "y").2.1⟩

/-- C4: when download resolution returns 404 and `createIfMissing` is
false, the invocation surfaces the not-found error after the single
download-resolution call; no upload-handle request and no upload are
ever issued, so the remote file is untouched. -/
theorem c4_notfound_create_disabled_aborts (cfg : Config)
    (items : List Record) (h : cfg.createIfMissing = false) :
    execute cfg .notFound items
      = ([NetCall.resolveDownload cfg.filePath],
         .error .notFound404)
    ∧ ∀ call ∈ (execute cfg .notFound items).1,
        (∀ p, call ≠ NetCall.resolveUpload p)
        ∧ ∀ b, call ≠ NetCall.upload b := by
  have he : execute cfg .notFound items
      = ([NetCall.resolveDownload cfg.filePath],
         .error .notFound404) := by
    simp [execute, h]
  refine ⟨he, ?_⟩
  rw [he]
  intro call hc
  simp only [List.mem_singleton] at hc
  subst hc
  exact ⟨fun p hp => NetCall.noConfusion hp,
         fun b hb => NetCall.noConfusion hb⟩

/-- Witness for C4 at a concrete configuration with
`createIfMissing = false`. -/
theorem c4_notfound_create_disabled_aborts_witness :
    execute cfgC4w .notFound []
      = ([NetCall.resolveDownload "disk:/c4.csv"],
         .error .notFound404) :=
  (c4_notfound_create_disabled_aborts cfgC4w [] rfl).1

def cfgC6 : Config :=
  { filePath := "disk:/c6.csv", delimiter := ',', encoding := "utf-8",
    hasHeader := true, mappingMode := .byColumns, columnsCsv := "b,a",
    createIfMissing := true, writeHeaderOnCreate := true }

/-- C5: in `byHeader` mode with no header known at the start of the
mapping loop, the header is derived exactly once — from the key order
of the first record — and that same header shapes the row of every
record of the invocation, never being re-derived from later
records. -/
theorem c5_header_derived_once (cols : List String) (r : Record)
    (rest : List Record) :
    mapRecords .byHeader cols none (r :: rest)
      = ((r :: rest).map (fun o => (recordKeys r).map (fun k => cell o k)),
         some (recordKeys r)) := by
  simp [mapRecords, mapRecords_byHeader_some]

/-- C6: in `byColumns` mode the explicit column list orders every
record's row, whatever header was discovered and whatever the
record's own key order; in particular columns `b,a` applied to the
record `a=1,b=2` produce the row `2,1`, in either key order. -/
theorem c6_explicit_columns_order (cols : List String)
    (hdr : Option (List String)) (items : List Record) :
    mapRecords .byColumns cols hdr items
      = (items.map (fun o => cols.map (fun k => cell o k)), hdr)
    ∧ explicitColumns cfgC6 = ["b", "a"]
    ∧ (mapRecords .byColumns (explicitColumns cfgC6) none
        [[("a", Value.num 1), ("b", Value.num 2)]]).1 = [["2", "1"]]
    ∧ (mapRecords .byColumns (explicitColumns cfgC6) (some ["a", "b"])
        [[("b", Value.num 2), ("a", Value.num 1)]]).1 = [["2", "1"]]
    ∧ stringifyRow ',' ["2", "1"] = "2,1" :=
  ⟨mapRecords_byColumns cols hdr items,
   by decide, by decide, by decide, by decide⟩

/-- C7: a referenced column that a record lacks, or whose value is
null, yields the empty string for that cell rather than an error; the
header `a,b` applied to the record `a=1` gives the row `1,`. -/
theorem c7_missing_key_empty_cell (obj : Record) (k : String) :
    ((lookupVal obj k = none ∨ lookupVal obj k = some Value.null) →
      cell obj k = "")
    ∧ ["a", "b"].map (fun c => cell [("a", Value.num 1)] c) = ["1", ""]
    ∧ stringifyRow ',' ["1", ""] = "1," := by
  refine ⟨fun h => ?_, by decide, by decide⟩
  unfold cell
  rcases h with h | h <;> rw [h]

/-- Witness for C7 at the empty record and column `a`. -/
theorem c7_missing_key_empty_cell_witness :
    cell [] "a" = "" ∧ stringifyRow ',' ["1", ""] = "1," :=
  ⟨(c7_missing_key_empty_cell [] "a").1 (Or.inl rfl),
   (c7_missing_key_empty_cell [] "a").2.2⟩

def cfgC8w : Config :=
  { filePath := "disk:/c8.csv", delimiter := ',', encoding := "utf-8",
    hasHeader := true, mappingMode := .byHeader, columnsCsv := "",
    createIfMissing := true, writeHeaderOnCreate := true }

def cfgC9x : Config :=
  { filePath := "disk:/c9.csv", delimiter := ',', encoding := "utf-8",
    hasHeader := false, mappingMode := .byHeader, columnsCsv := "",
    createIfMissing := true, writeHeaderOnCreate := true }

def cfgC10x : Config :=
  { filePath := "disk:/c10.csv", delimiter := ',', encoding := "utf-8",
    hasHeader := true, mappingMode := .byHeader, columnsCsv := "",
    createIfMissing := true, writeHeaderOnCreate := true }

/-- C8 counterexample: the whitespace-only content `" "` is non-empty
and `hasHeader` is set, yet the node does not parse the first line
(the guard is `currentCsv.trim().length > 0`), so "discovery performed
iff the file exists, its content is non-empty and hasHeader" is false:
discovery on `" "` would yield the header `[" "]`, but the node leaves
the header unknown. -/
theorem c8_header_discovery_counterexample :
    ¬ ∀ content : String, content ≠ "" →
        headerRowOf true ',' content
          = parseCsvFirst ',' (firstLine content) := by
  intro h
  exact absurd (h " " (by decide)) (by decide)

/-- C8 amended: header discovery is performed iff the file exists,
its content has a non-whitespace character (the trim-guard), and
`hasHeader` is true; when performed, exactly the first line is parsed
with the configured delimiter, and a first line that fails to parse
aborts the invocation with the malformed-header error. -/
theorem c8_header_discovery_trim_guard (cfg : Config)
    (content : String) (items : List Record) :
    (cfg.hasHeader = true → trimmedNonempty content = true →
      headerRowOf cfg.hasHeader cfg.delimiter content
        = parseCsvFirst cfg.delimiter (firstLine content))
    ∧ (¬ (cfg.hasHeader = true ∧ trimmedNonempty content = true) →
      headerRowOf cfg.hasHeader cfg.delimiter content = .ok none)
    ∧ (∀ e, cfg.hasHeader = true → trimmedNonempty content = true →
        parseCsvFirst cfg.delimiter (firstLine content) = .error e →
        (execute cfg (.found content) items).2
          = .error .malformedHeader) := by
  refine ⟨fun h1 h2 => ?_, fun h => ?_, fun e h1 h2 h3 => ?_⟩
  · simp [headerRowOf, h1, h2]
  · simp only [headerRowOf, Bool.and_eq_true]
    rw [if_neg h]
  · have hh : headerRowOf cfg.hasHeader cfg.delimiter content
        = .error e := by
      simp [headerRowOf, h1, h2, h3]
    simp [execute, hh]

/-- Witness for C8 amended: the unclosed quote `"x` as first line is
a parse error and aborts the run. -/
theorem c8_header_discovery_trim_guard_witness :
    (execute cfgC8w (.found "\"x") []).2 = .error .malformedHeader :=
  (c8_header_discovery_trim_guard cfgC8w "\"x" []).2.2
    ParseErr.quoteNotClosed rfl (by decide) (by decide)

/-- C9 counterexample: an input record that already has a `_ydisk`
field is not passed through unchanged with one field added — the JS
spread `{ ...it.json, _ydisk: { filePath } }` overwrites that field
in place, so the output record neither keeps the original value nor
grows by one field. -/
theorem c9_output_shape_counterexample :
    ¬ ∀ (cfg : Config) (env : DlEnv) (items : List Record)
        (up : String) (out : List OutRecord),
        (execute cfg env items).2 = .ok (up, out) →
        out = items.map (fun r =>
          r.map (fun p => (p.1, OutValue.val p.2))
            ++ [("_ydisk", OutValue.meta cfg.filePath)]) := by
  intro h
  have hx := h cfgC9x (.found "x\n") [[("_ydisk", Value.str "v")]]
    "x\nv\n" [[("_ydisk", OutValue.meta "disk:/c9.csv")]] (by decide)
  exact absurd hx (by decide)

/-- C9 amended: on every successful invocation the output list echoes
the input list in order and length, each record mapped by the
`_ydisk`-augmentation; a record without a preexisting `_ydisk` field
is passed through unchanged plus exactly the one added field carrying
the file path (a preexisting `_ydisk` field is instead overwritten in
place). -/
theorem c9_output_echo_augmented (cfg : Config) (env : DlEnv)
    (items : List Record) (up : String) (out : List OutRecord)
    (h : (execute cfg env items).2 = .ok (up, out)) :
    out = items.map (addYdisk cfg.filePath)
    ∧ out.length = items.length
    ∧ ∀ r, r.all (fun p => p.1 != "_ydisk") = true →
        addYdisk cfg.filePath r
          = r.map (fun p => (p.1, OutValue.val p.2))
            ++ [("_ydisk", OutValue.meta cfg.filePath)] := by
  have hout : out = items.map (addYdisk cfg.filePath) := by
    cases env with
    | failure => simp [execute] at h
    | notFound =>
        by_cases hc : cfg.createIfMissing
        · simp [execute, hc, runUploadPhase] at h
          exact h.2.symm
        · simp [execute, hc] at h
    | found content =>
        cases hh : headerRowOf cfg.hasHeader cfg.delimiter content with
        | error e => simp [execute, hh] at h
        | ok hdr =>
            simp [execute, hh, runUploadPhase] at h
            exact h.2.symm
  refine ⟨hout, by rw [hout]; exact List.length_map _ _, fun r hr => ?_⟩
  unfold addYdisk
  rw [if_neg ?hne]
  case hne =>
    intro hany
    rw [List.any_eq_true] at hany
    obtain ⟨p, hp, hpe⟩ := hany
    rw [List.all_eq_true] at hr
    have hne := hr p hp
    simp [bne, hpe] at hne

/-- Witness for C9 amended at a concrete successful run. -/
theorem c9_output_echo_augmented_witness :
    ([[("a", OutValue.val (Value.num 1)),
       ("_ydisk", OutValue.meta "disk:/c9.csv")]] : List OutRecord)
      = [[("a", Value.num 1)]].map (addYdisk cfgC9x.filePath)
    ∧ addYdisk cfgC9x.filePath [("a", Value.num 1)]
      = [("a", OutValue.val (Value.num 1)),
         ("_ydisk", OutValue.meta cfgC9x.filePath)] := by
  have h := c9_output_echo_augmented cfgC9x (.found "x\n")
    [[("a", Value.num 1)]] "x\n1\n"
    [[("a", OutValue.val (Value.num 1)),
      ("_ydisk", OutValue.meta "disk:/c9.csv")]] (by decide)
  exact ⟨h.1, h.2.2 [("a", Value.num 1)] (by decide)⟩

/-- C10 counterexample: with an empty input list and an existing file
whose first line is the unclosed quote `"x` (and `hasHeader` set),
the invocation aborts at header parsing, so nothing at all is
uploaded — the upload round-trip is not always performed. -/
theorem c10_empty_items_counterexample :
    ¬ ∀ (cfg : Config) (content : String),
        (execute cfg (.found content) []).2
          = .ok (content, []) := by
  intro h
  exact absurd (h cfgC10x "\"x") (by decide)

/-- C10 amended: with an empty input list and an existing file,
provided header discovery does not fail (it is skipped or the first
line parses), the composed append fragment is empty, the uploaded
body equals the existing content byte for byte, and the
upload-handle and upload round trips are still issued. -/
theorem c10_empty_items_uploads_unchanged (cfg : Config)
    (content : String) (hdr : Option (List String))
    (h : headerRowOf cfg.hasHeader cfg.delimiter content = .ok hdr) :
    stringifyRows cfg.delimiter
        (mapRecords cfg.mappingMode (explicitColumns cfg) hdr []).1 = ""
    ∧ (execute cfg (.found content) []).2 = .ok (content, [])
    ∧ (execute cfg (.found content) []).1
      = [NetCall.resolveDownload cfg.filePath, NetCall.fetchContent,
         NetCall.resolveUpload cfg.filePath, NetCall.upload content] := by
  have hmap : mapRecords cfg.mappingMode (explicitColumns cfg) hdr []
      = ([], hdr) := rfl
  have happ : composeAppend cfg false hdr [] = "" := by
    simp [composeAppend, stringifyRows, String.join]
  refine ⟨rfl, ?_, ?_⟩
  · simp [execute, h, runUploadPhase, hmap, happ, mergeCsv_empty_append]
  · simp [execute, h, runUploadPhase, hmap, happ, mergeCsv_empty_append]

/-- Witness for C10 amended at an existing file `a,b\n`. -/
theorem c10_empty_items_uploads_unchanged_witness :
    (execute cfgC10x (.found "a,b\n") []).2 = .ok ("a,b\n", []) :=
  (c10_empty_items_uploads_unchanged cfgC10x "a,b\n" (some ["a", "b"])
    (by decide)).2.1
